import Mathlib

/-!
Shallow embedding of the ATM account ledger and transaction engine
(`src/Data/ATM.py`).  Monetary amounts (Python floats that are only ever
added, subtracted and compared) are modelled as `Int`; calendar dates and
timestamps (`datetime` values that are only ever compared for equality and
serialized) are modelled as `Nat`.
-/

namespace ATM

/-- `ConfiguracionATM.LIMITE_RETIRO_DIARIO`. -/
def limiteRetiroDiario : Int := 200000

/-- `ConfiguracionATM.LIMITE_RETIRO_TRANSACCION`. -/
def limiteRetiroTransaccion : Int := 50000

/-- `ConfiguracionATM.INTENTOS_PIN_MAXIMOS`. -/
def intentosPinMaximos : Nat := 3

/-- `SistemaSeguridad.hash_pin`: the SHA-256 hex digest is modelled as an
injective tagging of the PIN string (deterministic and one-way up to the
collision-freeness the source assumes). -/
def hash_pin (pin : String) : String := "sha256:" ++ pin

/-- `SistemaSeguridad.verificar_pin`. -/
def verificar_pin (pin : String) (pin_hasheado : String) : Bool :=
  hash_pin pin == pin_hasheado

/-- `SistemaSeguridad.validar_formato_pin`: `pin.isdigit() and len(pin) == 4`. -/
def validar_formato_pin (pin : String) : Bool :=
  pin.data.all Char.isDigit && pin.length == 4

/-- `TipoTransaccion`. -/
inductive Tipo where
  | retiro
  | deposito
  | consulta
  | cambioPin
  | login
deriving DecidableEq, Repr

/-- `EstadoTransaccion`. -/
inductive Estado where
  | exitosa
  | fallida
  | cancelada
deriving DecidableEq, Repr

/-- `Transaccion`: timestamp, kind, amount, status, account id, detail. -/
structure Transaccion where
  timestamp : Nat
  tipo : Tipo
  monto : Int
  estado : Estado
  cuenta : String
  detalle : String
deriving DecidableEq, Repr

/-- `CuentaUsuario`: the per-account state. -/
structure Cuenta where
  numero_cuenta : String
  pin_hash : String
  saldo : Int
  bloqueada : Bool
  intentos_fallidos : Nat
  ultimo_retiro_fecha : Option Nat
  retiros_diarios : Int
  fecha_creacion : Nat
deriving DecidableEq, Repr

/-- The `CuentaUsuario.__init__` constructor (`ahora` is the ambient clock
supplying `datetime.now()`). -/
def nuevaCuenta (numero pin : String) (saldo_inicial : Int) (ahora : Nat) : Cuenta :=
  { numero_cuenta := numero
    pin_hash := hash_pin pin
    saldo := saldo_inicial
    bloqueada := false
    intentos_fallidos := 0
    ultimo_retiro_fecha := none
    retiros_diarios := 0
    fecha_creacion := ahora }

/-- The reason strings returned by `CuentaUsuario.puede_retirar`, as a sum
type (the source returns Spanish message strings; `mensaje` renders them). -/
inductive Razon where
  | saldoInsuficiente
  | excedeLimiteTransaccion
  | excedeLimiteDiario
  | ok
deriving DecidableEq, Repr

/-- The message string attached to each `Razon` by `puede_retirar`. -/
def mensaje : Razon → String
  | .saldoInsuficiente => "Saldo insuficiente"
  | .excedeLimiteTransaccion => "Monto excede limite por transaccion"
  | .excedeLimiteDiario => "Excede limite diario de retiros"
  | .ok => "OK"

/-- `CuentaUsuario.verificar_pin`. -/
def Cuenta.verificar (c : Cuenta) (pin : String) : Bool :=
  verificar_pin pin c.pin_hash

/-- `CuentaUsuario.cambiar_pin`: returns the updated account together with
the boolean result (the Python method mutates `self`). -/
def cambiar_pin (c : Cuenta) (pin_actual pin_nuevo : String) : Cuenta × Bool :=
  if c.verificar pin_actual && validar_formato_pin pin_nuevo then
    ({ c with pin_hash := hash_pin pin_nuevo }, true)
  else
    (c, false)

/-- `CuentaUsuario.puede_retirar`: returns the (possibly mutated) account,
the verdict and the reason.  `hoy` is the ambient `datetime.now().date()`.
Note that the source mutates `self.retiros_diarios` / `self.ultimo_retiro_fecha`
inside this check when the stored date differs from today. -/
def puede_retirar (c : Cuenta) (monto : Int) (hoy : Nat) : Cuenta × Bool × Razon :=
  if c.saldo < monto then
    (c, false, .saldoInsuficiente)
  else if monto > limiteRetiroTransaccion then
    (c, false, .excedeLimiteTransaccion)
  else
    let c :=
      if c.ultimo_retiro_fecha ≠ some hoy then
        { c with retiros_diarios := 0, ultimo_retiro_fecha := some hoy }
      else c
    if c.retiros_diarios + monto > limiteRetiroDiario then
      (c, false, .excedeLimiteDiario)
    else
      (c, true, .ok)

/-- `CuentaUsuario.retirar`. -/
def retirar (c : Cuenta) (monto : Int) (hoy : Nat) : Cuenta × Bool :=
  let r := puede_retirar c monto hoy
  if r.2.1 then
    ({ r.1 with saldo := r.1.saldo - monto, retiros_diarios := r.1.retiros_diarios + monto },
      true)
  else
    (r.1, false)

/-- `CuentaUsuario.depositar`. -/
def depositar (c : Cuenta) (monto : Int) : Cuenta × Bool :=
  if monto > 0 then
    ({ c with saldo := c.saldo + monto }, true)
  else
    (c, false)

/-! ### Persistence (`Transaccion.to_dict`/`from_dict`,
`CuentaUsuario.to_dict`/`from_dict`, `GestorDatos`) -/

/-- `datetime.isoformat`, modelled as an injective rendering of the abstract
timestamp (real calendar strings are outside the embedding; only
determinism, injectivity and decodability matter to the source). -/
def isoformat (t : Nat) : String := String.mk (List.replicate t 'd')

/-- `datetime.fromisoformat`, the partial inverse of `isoformat`; raises
`ValueError` (here: `none`) on a string `isoformat` cannot have produced. -/
def fromisoformat (s : String) : Option Nat :=
  if s.data.all (fun ch => ch == 'd') then some s.data.length else none

/-- `TipoTransaccion(...).value`. -/
def tipoStr : Tipo → String
  | .retiro => "RETIRO"
  | .deposito => "DEPOSITO"
  | .consulta => "CONSULTA"
  | .cambioPin => "CAMBIO_PIN"
  | .login => "LOGIN"

/-- The `TipoTransaccion(s)` enum constructor; `ValueError` on an unknown
value becomes `none`. -/
def tipoDeStr (s : String) : Option Tipo :=
  if s == "RETIRO" then some .retiro
  else if s == "DEPOSITO" then some .deposito
  else if s == "CONSULTA" then some .consulta
  else if s == "CAMBIO_PIN" then some .cambioPin
  else if s == "LOGIN" then some .login
  else none

/-- `EstadoTransaccion(...).value`. -/
def estadoStr : Estado → String
  | .exitosa => "EXITOSA"
  | .fallida => "FALLIDA"
  | .cancelada => "CANCELADA"

/-- The `EstadoTransaccion(s)` enum constructor. -/
def estadoDeStr (s : String) : Option Estado :=
  if s == "EXITOSA" then some .exitosa
  else if s == "FALLIDA" then some .fallida
  else if s == "CANCELADA" then some .cancelada
  else none

/-- The JSON object written by `Transaccion.to_dict` (an object with these
fixed keys; enum and datetime values are stored as strings). -/
structure TransaccionDict where
  timestamp : String
  tipo : String
  monto : Int
  estado : String
  cuenta : String
  detalle : String
deriving DecidableEq, Repr

/-- `Transaccion.to_dict`. -/
def Transaccion.to_dict (t : Transaccion) : TransaccionDict :=
  { timestamp := isoformat t.timestamp
    tipo := tipoStr t.tipo
    monto := t.monto
    estado := estadoStr t.estado
    cuenta := t.cuenta
    detalle := t.detalle }

/-- `Transaccion.from_dict`; a `ValueError` from an enum constructor or
`fromisoformat` becomes `none`. -/
def Transaccion.from_dict (d : TransaccionDict) : Option Transaccion :=
  match tipoDeStr d.tipo, estadoDeStr d.estado, fromisoformat d.timestamp with
  | some tipo, some estado, some ts =>
      some { timestamp := ts, tipo := tipo, monto := d.monto, estado := estado,
             cuenta := d.cuenta, detalle := d.detalle }
  | _, _, _ => none

/-- The JSON object written by `CuentaUsuario.to_dict`. -/
structure CuentaDict where
  numero_cuenta : String
  pin_hash : String
  saldo : Int
  bloqueada : Bool
  intentos_fallidos : Nat
  ultimo_retiro_fecha : Option String
  retiros_diarios : Int
  fecha_creacion : String
deriving DecidableEq, Repr

/-- `CuentaUsuario.to_dict`. -/
def Cuenta.to_dict (c : Cuenta) : CuentaDict :=
  { numero_cuenta := c.numero_cuenta
    pin_hash := c.pin_hash
    saldo := c.saldo
    bloqueada := c.bloqueada
    intentos_fallidos := c.intentos_fallidos
    ultimo_retiro_fecha := c.ultimo_retiro_fecha.map isoformat
    retiros_diarios := c.retiros_diarios
    fecha_creacion := isoformat c.fecha_creacion }

/-- `CuentaUsuario.from_dict`; a `ValueError` from `fromisoformat` becomes
`none`. -/
def Cuenta.from_dict (d : CuentaDict) : Option Cuenta :=
  let fecha? : Option (Option Nat) :=
    match d.ultimo_retiro_fecha with
    | none => some none
    | some s => (fromisoformat s).map some
  match fecha?, fromisoformat d.fecha_creacion with
  | some fecha, some creacion =>
      some { numero_cuenta := d.numero_cuenta
             pin_hash := d.pin_hash
             saldo := d.saldo
             bloqueada := d.bloqueada
             intentos_fallidos := d.intentos_fallidos
             ultimo_retiro_fecha := fecha
             retiros_diarios := d.retiros_diarios
             fecha_creacion := creacion }
  | _, _ => none

/-- The structured document held by `datos_atm.json`. -/
structure FileData where
  cuentas : List CuentaDict
  transacciones : List TransaccionDict
deriving DecidableEq, Repr

/-- Python `dict` assignment `m[k] = v` on an insertion-ordered dictionary
modelled as an association list: replace in place if the key exists,
otherwise append. -/
def dictInsert (m : List (String × Cuenta)) (k : String) (v : Cuenta) :
    List (String × Cuenta) :=
  match m with
  | [] => [(k, v)]
  | p :: rest => if p.1 = k then (k, v) :: rest else p :: dictInsert rest k v

/-- Python `dict` lookup `m[k]` / `k in m`. -/
def dictGet (m : List (String × Cuenta)) (k : String) : Option Cuenta :=
  match m with
  | [] => none
  | p :: rest => if p.1 = k then some p.2 else dictGet rest k

/-- The account-loading loop of `GestorDatos.cargar_datos`: decodes records
in order, stopping at the first record whose `from_dict` raises; returns the
accounts accumulated so far and whether the loop completed. -/
def cargaCuentas : List CuentaDict → List Cuenta → List Cuenta × Bool
  | [], acc => (acc, true)
  | d :: rest, acc =>
    match Cuenta.from_dict d with
    | some c => cargaCuentas rest (acc ++ [c])
    | none => (acc, false)

/-- The transaction-loading loop of `GestorDatos.cargar_datos`. -/
def cargaTransacciones : List TransaccionDict → List Transaccion →
    List Transaccion × Bool
  | [], acc => (acc, true)
  | d :: rest, acc =>
    match Transaccion.from_dict d with
    | some t => cargaTransacciones rest (acc ++ [t])
    | none => (acc, false)

/-- The `cuentas[cuenta.numero_cuenta] = cuenta` rebuild performed by
`cargar_datos`. -/
def listaADict (cs : List Cuenta) : List (String × Cuenta) :=
  cs.foldl (fun m c => dictInsert m c.numero_cuenta c) []

/-- `GestorDatos.cargar_datos`.  The durable file is `none` when missing and
`some none` when present but not parseable as JSON; both the account loop
and the transaction loop run inside one `try`, so an exception in either
keeps whatever was accumulated before it (and an account failure skips the
transaction loop entirely). -/
def cargar_datos (archivo : Option (Option FileData)) :
    List (String × Cuenta) × List Transaccion :=
  match archivo with
  | none => ([], [])
  | some none => ([], [])
  | some (some data) =>
    let rc := cargaCuentas data.cuentas []
    let cuentas := listaADict rc.1
    if rc.2 then
      let rt := cargaTransacciones data.transacciones []
      (cuentas, rt.1)
    else
      (cuentas, [])

/-- `GestorDatos.guardar_datos`: serializes every account and the last 1000
transactions (`transacciones[-1000:]`). -/
def guardar_datos (cuentas : List (String × Cuenta)) (transacciones : List Transaccion) :
    FileData :=
  { cuentas := (cuentas.map (fun p => p.2)).map Cuenta.to_dict
    transacciones :=
      (transacciones.drop (transacciones.length - 1000)).map Transaccion.to_dict }

/-! ### The engine (`CajeroAutomatico` / `AdministradorATM`)

The mutable engine state: the account dictionary, the bound session
(`cuenta_actual`, here the bound account number; `sesion_activa` is its
`isSome`) and the in-memory transaction log.  Every interactive prompt
(PIN entry, amount entry, confirmation) is a synchronous collaborator
round-trip, so its answers arrive as data carried by the operation;
cancellation at a prompt is `none`.  The ambient clock of each operation is
one `Nat` `ahora`, supplying both `datetime.now()` and its `.date()`. -/

structure SysState where
  cuentas : List (String × Cuenta)
  cuenta_actual : Option String
  transacciones : List Transaccion
deriving DecidableEq, Repr

/-- `CajeroAutomatico.registrar_transaccion`. -/
def registrar (s : SysState) (ahora : Nat) (tipo : Tipo) (monto : Int)
    (estado : Estado) (detalle : String) : SysState :=
  let cuenta_id := s.cuenta_actual.getD "SISTEMA"
  { s with transacciones := s.transacciones ++
      [{ timestamp := ahora, tipo := tipo, monto := monto, estado := estado,
         cuenta := cuenta_id, detalle := detalle }] }

/-- The PIN loop of `CajeroAutomatico.autenticar_usuario`
(`for intento in range(INTENTOS_PIN_MAXIMOS)`).  `restantes` is the number
of iterations the `range` still allows; each list entry is one
`solicitar_pin` answer, `none` being the empty string returned on
cancellation (an exhausted list is likewise a cancellation, since no further
input exists). -/
def autenticarLoop (c : Cuenta) (pins : List (Option String)) :
    Nat → Cuenta × Bool
  | 0 => (c, false)
  | restantes + 1 =>
    match pins with
    | [] => (c, false)
    | none :: _ => (c, false)
    | some pin :: resto =>
      if c.verificar pin then
        ({ c with intentos_fallidos := 0 }, true)
      else
        let c2 := { c with intentos_fallidos := c.intentos_fallidos + 1 }
        if restantes = 0 then
          ({ c2 with bloqueada := true }, false)
        else
          autenticarLoop c2 resto restantes

/-- `CajeroAutomatico.autenticar_usuario`.  The in-place mutations the loop
makes on the account object are written back to the dictionary; locking the
account additionally logs a failed-login record, success logs a successful
one after binding the session. -/
def autenticar_usuario (s : SysState) (ahora : Nat) (numero : String)
    (pins : List (Option String)) : SysState :=
  match dictGet s.cuentas numero with
  | none =>
      registrar s ahora .login 0 .fallida ("Cuenta inexistente: " ++ numero)
  | some c =>
    if c.bloqueada then s
    else
      let r := autenticarLoop c pins intentosPinMaximos
      let s1 := { s with cuentas := dictInsert s.cuentas numero r.1 }
      if r.2 then
        registrar { s1 with cuenta_actual := some numero } ahora .login 0 .exitosa
          "Login exitoso"
      else if r.1.bloqueada then
        registrar s1 ahora .login 0 .fallida "Cuenta bloqueada por intentos fallidos"
      else s1

/-- `CajeroAutomatico.procesar_retiro` on the bound account `c` stored at
key `id`: the eligibility check runs (and its in-place mutation is written
back) before the confirmation prompt; `retirar` re-runs the check. -/
def procesar_retiro (s : SysState) (id : String) (c : Cuenta) (hoy : Nat)
    (monto : Int) (confirmado : Bool) : SysState :=
  let pr := puede_retirar c monto hoy
  let s1 := { s with cuentas := dictInsert s.cuentas id pr.1 }
  if pr.2.1 = false then
    registrar s1 hoy .retiro monto .fallida (mensaje pr.2.2)
  else if confirmado then
    let r := retirar pr.1 monto hoy
    let s2 := { s1 with cuentas := dictInsert s1.cuentas id r.1 }
    if r.2 then registrar s2 hoy .retiro monto .exitosa ""
    else registrar s2 hoy .retiro monto .fallida ""
  else
    registrar s1 hoy .retiro monto .cancelada ""

/-- `CajeroAutomatico.procesar_deposito`; `monto = none` is a cancelled
amount prompt (the prompt itself only ever returns positive amounts, but
`depositar` re-checks positivity). -/
def procesar_deposito (s : SysState) (id : String) (c : Cuenta) (ahora : Nat)
    (monto : Option Int) (confirmado : Bool) : SysState :=
  match monto with
  | none => s
  | some m =>
    if confirmado then
      let r := depositar c m
      let s2 := { s with cuentas := dictInsert s.cuentas id r.1 }
      if r.2 then registrar s2 ahora .deposito m .exitosa ""
      else registrar s2 ahora .deposito m .fallida ""
    else
      registrar s ahora .deposito m .cancelada ""

/-- `CajeroAutomatico.cambiar_pin` (the engine wrapper): cancelling either
PIN prompt returns silently, as does a mismatched confirmation. -/
def procesar_cambio_pin (s : SysState) (id : String) (c : Cuenta) (ahora : Nat)
    (pin_actual pin_nuevo : Option String) (pin_confirmacion : String) : SysState :=
  match pin_actual with
  | none => s
  | some pa =>
    match pin_nuevo with
    | none => s
    | some pn =>
      if pn ≠ pin_confirmacion then s
      else
        let r := cambiar_pin c pa pn
        let s2 := { s with cuentas := dictInsert s.cuentas id r.1 }
        if r.2 then registrar s2 ahora .cambioPin 0 .exitosa ""
        else registrar s2 ahora .cambioPin 0 .fallida ""

/-- `AdministradorATM.desbloquear_cuenta`. -/
def desbloquear_cuenta (s : SysState) (numero : String) (confirmado : Bool) :
    SysState :=
  match dictGet s.cuentas numero with
  | none => s
  | some c =>
    if c.bloqueada = false then s
    else if confirmado then
      let c2 := { c with bloqueada := false, intentos_fallidos := 0 }
      { s with cuentas := dictInsert s.cuentas numero c2 }
    else s

/-- `AdministradorATM.crear_cuenta`; `pin = none` is a cancelled PIN prompt
and `saldo_inicial = none` an unparseable balance entry. -/
def crear_cuenta (s : SysState) (ahora : Nat) (numero : String)
    (pin : Option String) (saldo_inicial : Option Int) : SysState :=
  if !(numero.data.all Char.isDigit && numero.length == 6) then s
  else if (dictGet s.cuentas numero).isSome then s
  else
    match pin with
    | none => s
    | some p =>
      match saldo_inicial with
      | none => s
      | some sal =>
        if sal < 0 then s
        else { s with cuentas := dictInsert s.cuentas numero (nuevaCuenta numero p sal ahora) }

/-- `AdministradorATM.limpiar_logs`. -/
def limpiar_logs (s : SysState) (confirmado : Bool) : SysState :=
  if s.transacciones.isEmpty then s
  else if confirmado then { s with transacciones := [] }
  else s

/-- One engine-level operation, carrying every collaborator answer it
consumes (prompt replies, confirmations) and its clock value. -/
inductive Op where
  | autenticar (ahora : Nat) (numero : String) (pins : List (Option String))
  | retiro (hoy : Nat) (monto : Int) (confirmado : Bool)
  | deposito (ahora : Nat) (monto : Option Int) (confirmado : Bool)
  | consulta (ahora : Nat)
  | cambioPin (ahora : Nat) (pin_actual pin_nuevo : Option String)
      (pin_confirmacion : String)
  | cerrarSesion (confirmado : Bool)
  | desbloquear (numero : String) (confirmado : Bool)
  | crearCuenta (ahora : Nat) (numero : String) (pin : Option String)
      (saldo_inicial : Option Int)
  | limpiarRegistro (confirmado : Bool)
deriving DecidableEq, Repr

/-- Runs an in-session operation on the bound account, as the user menu
does; without a bound session the operation is unreachable and a no-op. -/
def conSesion (s : SysState) (f : String → Cuenta → SysState) : SysState :=
  match s.cuenta_actual with
  | none => s
  | some id =>
    match dictGet s.cuentas id with
    | none => s
    | some c => f id c

/-- One step of the engine.  Authentication is only reachable from the main
menu, i.e. with no bound session. -/
def step (s : SysState) (op : Op) : SysState :=
  match op with
  | .autenticar ahora numero pins =>
    match s.cuenta_actual with
    | some _ => s
    | none => autenticar_usuario s ahora numero pins
  | .retiro hoy monto confirmado =>
    conSesion s (fun id c => procesar_retiro s id c hoy monto confirmado)
  | .deposito ahora monto confirmado =>
    conSesion s (fun id c => procesar_deposito s id c ahora monto confirmado)
  | .consulta ahora =>
    conSesion s (fun _ _ => registrar s ahora .consulta 0 .exitosa "")
  | .cambioPin ahora pa pn pc =>
    conSesion s (fun id c => procesar_cambio_pin s id c ahora pa pn pc)
  | .cerrarSesion confirmado =>
    if confirmado then { s with cuenta_actual := none } else s
  | .desbloquear numero confirmado => desbloquear_cuenta s numero confirmado
  | .crearCuenta ahora numero pin saldo_inicial =>
    crear_cuenta s ahora numero pin saldo_inicial
  | .limpiarRegistro confirmado => limpiar_logs s confirmado

/-- A whole interaction: the engine processes operations strictly in
sequence. -/
def run (s : SysState) (ops : List Op) : SysState := ops.foldl step s

/-! ### Basic facts about the account operations -/

/-- `puede_retirar` never changes balance, PIN digest, lock flag or
failed-attempt count. -/
theorem puede_retirar_campos (c : Cuenta) (monto : Int) (hoy : Nat) :
    (puede_retirar c monto hoy).1.saldo = c.saldo ∧
    (puede_retirar c monto hoy).1.pin_hash = c.pin_hash ∧
    (puede_retirar c monto hoy).1.bloqueada = c.bloqueada ∧
    (puede_retirar c monto hoy).1.intentos_fallidos = c.intentos_fallidos ∧
    (puede_retirar c monto hoy).1.numero_cuenta = c.numero_cuenta := by
  simp only [puede_retirar]
  split_ifs <;> simp

/-- A successful `puede_retirar` verdict means the first check passed:
the (unchanged) balance covers the amount. -/
theorem puede_retirar_saldo_suficiente (c : Cuenta) (monto : Int) (hoy : Nat)
    (h : (puede_retirar c monto hoy).2.1 = true) : monto ≤ c.saldo := by
  simp only [puede_retirar] at h
  split_ifs at h with h1 <;> simp_all

/-- `retirar` never changes the lock flag, PIN digest, failed-attempt count
or account number. -/
theorem retirar_campos (c : Cuenta) (monto : Int) (hoy : Nat) :
    (retirar c monto hoy).1.bloqueada = c.bloqueada ∧
    (retirar c monto hoy).1.pin_hash = c.pin_hash ∧
    (retirar c monto hoy).1.intentos_fallidos = c.intentos_fallidos ∧
    (retirar c monto hoy).1.numero_cuenta = c.numero_cuenta := by
  obtain ⟨h1, h2, h3, h4, h5⟩ := puede_retirar_campos c monto hoy
  simp only [retirar]
  split_ifs <;> simp_all

/-- `retirar` keeps the balance non-negative: on success the first check of
`puede_retirar` guaranteed the balance covers the amount. -/
theorem retirar_saldo_nonneg (c : Cuenta) (monto : Int) (hoy : Nat)
    (h : 0 ≤ c.saldo) : 0 ≤ (retirar c monto hoy).1.saldo := by
  obtain ⟨h1, -, -, -, -⟩ := puede_retirar_campos c monto hoy
  simp only [retirar]
  split_ifs with hp
  · have := puede_retirar_saldo_suficiente c monto hoy hp
    simp only
    omega
  · simpa [h1] using h

/-- `depositar` keeps the balance non-negative and never touches any other
field. -/
theorem depositar_campos (c : Cuenta) (monto : Int) :
    (0 ≤ c.saldo → 0 ≤ (depositar c monto).1.saldo) ∧
    (depositar c monto).1.bloqueada = c.bloqueada ∧
    (depositar c monto).1.pin_hash = c.pin_hash ∧
    (depositar c monto).1.intentos_fallidos = c.intentos_fallidos ∧
    (depositar c monto).1.numero_cuenta = c.numero_cuenta := by
  unfold depositar
  split_ifs with hm
  · simp
    intro h
    omega
  · simp

/-- `cambiar_pin` only ever changes the PIN digest. -/
theorem cambiar_pin_campos (c : Cuenta) (pa pn : String) :
    (cambiar_pin c pa pn).1.saldo = c.saldo ∧
    (cambiar_pin c pa pn).1.bloqueada = c.bloqueada ∧
    (cambiar_pin c pa pn).1.intentos_fallidos = c.intentos_fallidos ∧
    (cambiar_pin c pa pn).1.numero_cuenta = c.numero_cuenta := by
  unfold cambiar_pin
  split_ifs <;> simp

/-! ### C2 — `puede_retirar` is not read-only -/

/-- C2 (counterexample): `canWithdraw` is claimed to return its verdict
"without changing any account field"; but on an account whose last
withdrawal date differs from today (balance 1000, daily total 100), the
check itself commits the daily reset. -/
theorem claim_C2_counterexample :
    (puede_retirar ⟨"1", hash_pin "1234", 1000, false, 0, some 0, 100, 0⟩ 10 1).1 ≠
      ⟨"1", hash_pin "1234", 1000, false, 0, some 0, 100, 0⟩ := by
  decide

/-- C2 (amended): `canWithdraw` leaves the account unchanged only when the
balance or per-transaction check fails or the stored date is already today;
otherwise it itself commits the daily reset (`retiros_diarios := 0`,
`ultimo_retiro_fecha := today`).  It never changes balance, PIN digest,
lock flag or failed-attempt count. -/
theorem claim_C2_amended (c : Cuenta) (monto : Int) (hoy : Nat) :
    (puede_retirar c monto hoy).1 =
      (if c.saldo < monto ∨ monto > limiteRetiroTransaccion ∨
          c.ultimo_retiro_fecha = some hoy then c
       else { c with retiros_diarios := 0, ultimo_retiro_fecha := some hoy }) ∧
    (puede_retirar c monto hoy).1.saldo = c.saldo ∧
    (puede_retirar c monto hoy).1.pin_hash = c.pin_hash ∧
    (puede_retirar c monto hoy).1.bloqueada = c.bloqueada ∧
    (puede_retirar c monto hoy).1.intentos_fallidos = c.intentos_fallidos := by
  refine ⟨?_, (puede_retirar_campos c monto hoy).1,
    (puede_retirar_campos c monto hoy).2.1,
    (puede_retirar_campos c monto hoy).2.2.1,
    (puede_retirar_campos c monto hoy).2.2.2.1⟩
  by_cases h1 : c.saldo < monto
  · simp [puede_retirar, h1]
  · by_cases h2 : monto > limiteRetiroTransaccion
    · simp [puede_retirar, h1, h2]
    · by_cases h3 : c.ultimo_retiro_fecha = some hoy
      · simp [puede_retirar, h1, h2, h3, apply_ite]
      · simp [puede_retirar, h1, h2, h3, apply_ite]

/-! ### C5 — order of the eligibility checks -/

/-- C5: `canWithdraw` reports the first failing rule in the order
insufficient funds, per-transaction limit, daily limit (the daily total
being evaluated after the conceptual day reset), and allows otherwise. -/
theorem claim_C5 (c : Cuenta) (monto : Int) (hoy : Nat) :
    ((puede_retirar c monto hoy).2.2 = Razon.saldoInsuficiente ↔
        c.saldo < monto) ∧
    ((puede_retirar c monto hoy).2.2 = Razon.excedeLimiteTransaccion ↔
        ¬c.saldo < monto ∧ monto > limiteRetiroTransaccion) ∧
    ((puede_retirar c monto hoy).2.2 = Razon.excedeLimiteDiario ↔
        ¬c.saldo < monto ∧ ¬monto > limiteRetiroTransaccion ∧
        (if c.ultimo_retiro_fecha = some hoy then c.retiros_diarios else 0) +
          monto > limiteRetiroDiario) ∧
    ((puede_retirar c monto hoy).2.1 = true ↔
        ¬c.saldo < monto ∧ ¬monto > limiteRetiroTransaccion ∧
        ¬((if c.ultimo_retiro_fecha = some hoy then c.retiros_diarios else 0) +
          monto > limiteRetiroDiario)) := by
  by_cases h1 : c.saldo < monto
  · simp [puede_retirar, h1]
  · by_cases h2 : monto > limiteRetiroTransaccion
    · simp [puede_retirar, h1, h2]
    · by_cases h3 : c.ultimo_retiro_fecha = some hoy
      · by_cases h4 : c.retiros_diarios + monto > limiteRetiroDiario <;>
          simp [puede_retirar, h1, h2, h3, h4]
      · by_cases h4 : monto > limiteRetiroDiario <;>
          simp [puede_retirar, h1, h2, h3, h4]

/-! ### C8 — `cambiar_pin` -/

/-- C8: `changePin` succeeds iff the current PIN verifies and the new PIN is
four decimal digits; success replaces the digest, failure leaves the account
untouched (the two failure causes are not distinguished). -/
theorem claim_C8 (c : Cuenta) (pin_actual pin_nuevo : String) :
    ((cambiar_pin c pin_actual pin_nuevo).2 = true ↔
        verificar_pin pin_actual c.pin_hash = true ∧
        validar_formato_pin pin_nuevo = true) ∧
    ((cambiar_pin c pin_actual pin_nuevo).2 = true →
        (cambiar_pin c pin_actual pin_nuevo).1 =
          { c with pin_hash := hash_pin pin_nuevo }) ∧
    ((cambiar_pin c pin_actual pin_nuevo).2 = false →
        (cambiar_pin c pin_actual pin_nuevo).1 = c) := by
  unfold cambiar_pin Cuenta.verificar
  split_ifs with h <;> simp_all

/-- C8 (witness): a concrete account whose PIN `1234` is changed to `5678`. -/
theorem claim_C8_witness :
    (cambiar_pin (nuevaCuenta "123456" "1234" 100000 0) "1234" "5678").2 = true ∧
    (cambiar_pin (nuevaCuenta "123456" "1234" 100000 0) "1234" "5678").1 =
      { nuevaCuenta "123456" "1234" 100000 0 with pin_hash := hash_pin "5678" } := by
  have h := claim_C8 (nuevaCuenta "123456" "1234" 100000 0) "1234" "5678"
  have h2 : (cambiar_pin (nuevaCuenta "123456" "1234" 100000 0) "1234" "5678").2 = true :=
    h.1.mpr ⟨by decide, by decide⟩
  exact ⟨h2, h.2.1 h2⟩

/-! ### C10 — non-positive amounts at the account interface -/

/-- C10 (counterexample): the claim says any non-positive withdrawal on an
account with non-negative balance succeeds; but with the stored date equal
to today and a daily total already above the daily limit, the daily check
rejects even a negative amount. -/
theorem claim_C10_counterexample :
    retirar ⟨"1", hash_pin "1234", 0, false, 0, some 5, 300000, 0⟩ (-1) 5 =
      (⟨"1", hash_pin "1234", 0, false, 0, some 5, 300000, 0⟩, false) := by
  decide

/-- C10 (amended): `withdraw`/`canWithdraw` have no `amount > 0`
precondition: a non-positive amount passes the balance and per-transaction
checks outright, and succeeds whenever the daily total evaluated after the
conceptual day reset stays within the daily limit (automatic on a day
change); the balance then grows by `|amount|` and the (possibly reset)
daily total shrinks by `|amount|`. -/
theorem claim_C10_amended (c : Cuenta) (monto : Int) (hoy : Nat)
    (hs : 0 ≤ c.saldo) (hm : monto ≤ 0)
    (hd : c.ultimo_retiro_fecha = some hoy →
      c.retiros_diarios + monto ≤ limiteRetiroDiario) :
    retirar c monto hoy =
      ({ c with
          saldo := c.saldo - monto,
          retiros_diarios :=
            (if c.ultimo_retiro_fecha = some hoy then c.retiros_diarios else 0) + monto,
          ultimo_retiro_fecha := some hoy }, true) := by
  have h1 : ¬c.saldo < monto := by omega
  have h2 : ¬monto > limiteRetiroTransaccion := by
    simp only [limiteRetiroTransaccion]; omega
  by_cases h3 : c.ultimo_retiro_fecha = some hoy
  · have hd' : ¬c.retiros_diarios + monto > limiteRetiroDiario := not_lt.mpr (hd h3)
    simp [retirar, puede_retirar, h1, h2, h3, hd']
  · have h4 : ¬monto > limiteRetiroDiario := by
      simp only [limiteRetiroDiario]; omega
    simp [retirar, puede_retirar, h1, h2, h3, h4]

/-- C10 (witness): withdrawing `-3` from a zero-balance account with daily
total 500 on the stored date succeeds and moves balance to 3, daily total to
497. -/
theorem claim_C10_amended_witness :
    retirar ⟨"1", hash_pin "1234", 0, false, 0, some 4, 500, 0⟩ (-3) 4 =
      (⟨"1", hash_pin "1234", 3, false, 0, some 4, 497, 0⟩, true) := by
  have h := claim_C10_amended ⟨"1", hash_pin "1234", 0, false, 0, some 4, 500, 0⟩
    (-3) 4 (by decide) (by decide) (fun _ => by decide)
  simpa using h

/-! ### Dictionary and engine infrastructure lemmas -/

theorem dictGet_dictInsert_self (m : List (String × Cuenta)) (k : String) (v : Cuenta) :
    dictGet (dictInsert m k v) k = some v := by
  induction m with
  | nil => simp [dictInsert, dictGet]
  | cons p rest ih =>
    by_cases h : p.1 = k
    · simp [dictInsert, dictGet, h]
    · simp [dictInsert, dictGet, h, ih]

theorem dictGet_dictInsert_ne (m : List (String × Cuenta)) (k k' : String)
    (v : Cuenta) (h : k' ≠ k) :
    dictGet (dictInsert m k v) k' = dictGet m k' := by
  induction m with
  | nil => simp [dictInsert, dictGet, Ne.symm h]
  | cons p rest ih =>
    by_cases hp : p.1 = k
    · subst hp
      simp [dictInsert, dictGet, Ne.symm h]
    · simp [dictInsert, dictGet, hp, ih]

theorem mem_dictInsert (m : List (String × Cuenta)) (k : String) (v : Cuenta)
    (p : String × Cuenta) (h : p ∈ dictInsert m k v) : p ∈ m ∨ p = (k, v) := by
  induction m with
  | nil => simpa [dictInsert] using h
  | cons q rest ih =>
    by_cases hq : q.1 = k
    · simp only [dictInsert, hq, if_pos] at h
      rcases List.mem_cons.mp h with h | h
      · exact Or.inr h
      · exact Or.inl (List.mem_cons_of_mem _ h)
    · simp only [dictInsert, hq, if_neg, not_false_iff] at h
      rcases List.mem_cons.mp h with h | h
      · exact Or.inl (h ▸ List.mem_cons_self _ _)
      · rcases ih h with h | h
        · exact Or.inl (List.mem_cons_of_mem _ h)
        · exact Or.inr h

theorem dictGet_mem (m : List (String × Cuenta)) (k : String) (c : Cuenta)
    (h : dictGet m k = some c) : (k, c) ∈ m := by
  induction m with
  | nil => simp [dictGet] at h
  | cons p rest ih =>
    by_cases hp : p.1 = k
    · simp only [dictGet, hp, if_pos] at h
      obtain ⟨rfl⟩ := h
      exact hp ▸ List.mem_cons_self _ _
    · simp only [dictGet, hp, if_neg, not_false_iff] at h
      exact List.mem_cons_of_mem _ (ih h)

theorem registrar_cuentas (s : SysState) (ahora : Nat) (tipo : Tipo) (monto : Int)
    (estado : Estado) (detalle : String) :
    (registrar s ahora tipo monto estado detalle).cuentas = s.cuentas := rfl

theorem registrar_actual (s : SysState) (ahora : Nat) (tipo : Tipo) (monto : Int)
    (estado : Estado) (detalle : String) :
    (registrar s ahora tipo monto estado detalle).cuenta_actual = s.cuenta_actual := rfl

/-- The PIN loop only touches `intentos_fallidos` and (on the locking
branch) `bloqueada`. -/
theorem autenticarLoop_campos (n : Nat) (pins : List (Option String)) (c : Cuenta) :
    (autenticarLoop c pins n).1.saldo = c.saldo ∧
    (autenticarLoop c pins n).1.pin_hash = c.pin_hash ∧
    (autenticarLoop c pins n).1.numero_cuenta = c.numero_cuenta ∧
    (autenticarLoop c pins n).1.ultimo_retiro_fecha = c.ultimo_retiro_fecha ∧
    (autenticarLoop c pins n).1.retiros_diarios = c.retiros_diarios := by
  induction n generalizing pins c with
  | zero => simp [autenticarLoop]
  | succ k ih =>
    match pins with
    | [] => simp [autenticarLoop]
    | none :: resto => simp [autenticarLoop]
    | some pin :: resto =>
      simp only [autenticarLoop]
      split_ifs with h1 h2
      · simp
      · simp
      · simpa using ih resto _

/-- A successful PIN loop leaves the lock flag as it was. -/
theorem autenticarLoop_exito_bloqueada (n : Nat) (pins : List (Option String))
    (c : Cuenta) (h : (autenticarLoop c pins n).2 = true) :
    (autenticarLoop c pins n).1.bloqueada = c.bloqueada := by
  induction n generalizing pins c with
  | zero => simp [autenticarLoop] at h
  | succ k ih =>
    match pins with
    | [] => simp [autenticarLoop] at h
    | none :: resto => simp [autenticarLoop] at h
    | some pin :: resto =>
      by_cases h1 : c.verificar pin
      · simp [autenticarLoop, h1]
      · by_cases h2 : k = 0
        · subst h2
          simp [autenticarLoop, h1] at h
        · have h' : (autenticarLoop
              { c with intentos_fallidos := c.intentos_fallidos + 1 } resto k).2 = true := by
            simpa [autenticarLoop, h1, h2] using h
          have hb := ih resto { c with intentos_fallidos := c.intentos_fallidos + 1 } h'
          simpa [autenticarLoop, h1, h2] using hb

/-- The session invariant of the engine: the bound account, if any, is not
locked (locking happens only inside authentication, which requires no bound
session and binds only on success). -/
def SesionValida (s : SysState) : Prop :=
  ∀ id c, s.cuenta_actual = some id → dictGet s.cuentas id = some c →
    c.bloqueada = false

/-- Inserting an account with a non-negative balance into a dictionary all of
whose balances are non-negative keeps every balance non-negative. -/
theorem saldos_dictInsert (m : List (String × Cuenta)) (k : String) (v : Cuenta)
    (hm : ∀ q ∈ m, 0 ≤ q.2.saldo) (hv : 0 ≤ v.saldo) :
    ∀ p ∈ dictInsert m k v, 0 ≤ p.2.saldo := by
  intro p hp
  rcases mem_dictInsert m k v p hp with h | h
  · exact hm p h
  · rw [h]
    exact hv

theorem procesar_retiro_actual (s : SysState) (id : String) (c : Cuenta)
    (hoy : Nat) (monto : Int) (cf : Bool) :
    (procesar_retiro s id c hoy monto cf).cuenta_actual = s.cuenta_actual := by
  simp only [procesar_retiro]
  split_ifs <;> rfl

theorem procesar_retiro_get_ne (s : SysState) (id : String) (c : Cuenta)
    (hoy : Nat) (monto : Int) (cf : Bool) (id' : String) (hne : id' ≠ id) :
    dictGet (procesar_retiro s id c hoy monto cf).cuentas id' =
      dictGet s.cuentas id' := by
  simp only [procesar_retiro]
  split_ifs <;> simp [registrar, dictGet_dictInsert_ne _ _ _ _ hne]

theorem procesar_retiro_get_self (s : SysState) (id : String) (c : Cuenta)
    (hoy : Nat) (monto : Int) (cf : Bool) :
    ∃ c', dictGet (procesar_retiro s id c hoy monto cf).cuentas id = some c' ∧
      c'.bloqueada = c.bloqueada ∧ (0 ≤ c.saldo → 0 ≤ c'.saldo) := by
  simp only [procesar_retiro]
  split_ifs with h1 h2 h3
  · exact ⟨(puede_retirar c monto hoy).1, dictGet_dictInsert_self _ _ _,
      (puede_retirar_campos c monto hoy).2.2.1,
      fun hs => (puede_retirar_campos c monto hoy).1 ▸ hs⟩
  · exact ⟨(retirar (puede_retirar c monto hoy).1 monto hoy).1,
      dictGet_dictInsert_self _ _ _,
      by rw [(retirar_campos _ monto hoy).1, (puede_retirar_campos c monto hoy).2.2.1],
      fun hs => retirar_saldo_nonneg _ monto hoy
        ((puede_retirar_campos c monto hoy).1 ▸ hs)⟩
  · exact ⟨(retirar (puede_retirar c monto hoy).1 monto hoy).1,
      dictGet_dictInsert_self _ _ _,
      by rw [(retirar_campos _ monto hoy).1, (puede_retirar_campos c monto hoy).2.2.1],
      fun hs => retirar_saldo_nonneg _ monto hoy
        ((puede_retirar_campos c monto hoy).1 ▸ hs)⟩
  · exact ⟨(puede_retirar c monto hoy).1, dictGet_dictInsert_self _ _ _,
      (puede_retirar_campos c monto hoy).2.2.1,
      fun hs => (puede_retirar_campos c monto hoy).1 ▸ hs⟩

theorem procesar_retiro_saldos (s : SysState) (id : String) (c : Cuenta)
    (hoy : Nat) (monto : Int) (cf : Bool)
    (hm : ∀ q ∈ s.cuentas, 0 ≤ q.2.saldo) (hc : 0 ≤ c.saldo) :
    ∀ p ∈ (procesar_retiro s id c hoy monto cf).cuentas, 0 ≤ p.2.saldo := by
  have hpr : 0 ≤ (puede_retirar c monto hoy).1.saldo :=
    (puede_retirar_campos c monto hoy).1 ▸ hc
  simp only [procesar_retiro]
  split_ifs with h1 h2 h3
  · exact fun p hp => saldos_dictInsert _ _ _ hm hpr p hp
  · exact fun p hp => saldos_dictInsert _ _ _ (saldos_dictInsert _ _ _ hm hpr)
      (retirar_saldo_nonneg _ monto hoy hpr) p hp
  · exact fun p hp => saldos_dictInsert _ _ _ (saldos_dictInsert _ _ _ hm hpr)
      (retirar_saldo_nonneg _ monto hoy hpr) p hp
  · exact fun p hp => saldos_dictInsert _ _ _ hm hpr p hp

theorem procesar_deposito_actual (s : SysState) (id : String) (c : Cuenta)
    (ahora : Nat) (monto : Option Int) (cf : Bool) :
    (procesar_deposito s id c ahora monto cf).cuenta_actual = s.cuenta_actual := by
  cases monto with
  | none => rfl
  | some m =>
    simp only [procesar_deposito]
    split_ifs <;> rfl

theorem procesar_deposito_get_ne (s : SysState) (id : String) (c : Cuenta)
    (ahora : Nat) (monto : Option Int) (cf : Bool) (id' : String) (hne : id' ≠ id) :
    dictGet (procesar_deposito s id c ahora monto cf).cuentas id' =
      dictGet s.cuentas id' := by
  cases monto with
  | none => rfl
  | some m =>
    simp only [procesar_deposito]
    split_ifs <;> simp [registrar, dictGet_dictInsert_ne _ _ _ _ hne]

theorem procesar_deposito_get_self (s : SysState) (id : String) (c : Cuenta)
    (ahora : Nat) (monto : Option Int) (cf : Bool)
    (hg : dictGet s.cuentas id = some c) :
    ∃ c', dictGet (procesar_deposito s id c ahora monto cf).cuentas id = some c' ∧
      c'.bloqueada = c.bloqueada ∧ (0 ≤ c.saldo → 0 ≤ c'.saldo) := by
  cases monto with
  | none => exact ⟨c, hg, rfl, fun hs => hs⟩
  | some m =>
    simp only [procesar_deposito]
    split_ifs with h1 h2
    · exact ⟨(depositar c m).1, dictGet_dictInsert_self _ _ _,
        (depositar_campos c m).2.1, fun hs => (depositar_campos c m).1 hs⟩
    · exact ⟨(depositar c m).1, dictGet_dictInsert_self _ _ _,
        (depositar_campos c m).2.1, fun hs => (depositar_campos c m).1 hs⟩
    · exact ⟨c, hg, rfl, fun hs => hs⟩

theorem procesar_deposito_saldos (s : SysState) (id : String) (c : Cuenta)
    (ahora : Nat) (monto : Option Int) (cf : Bool)
    (hm : ∀ q ∈ s.cuentas, 0 ≤ q.2.saldo) (hc : 0 ≤ c.saldo) :
    ∀ p ∈ (procesar_deposito s id c ahora monto cf).cuentas, 0 ≤ p.2.saldo := by
  cases monto with
  | none => exact hm
  | some m =>
    simp only [procesar_deposito]
    split_ifs with h1 h2
    · exact fun p hp => saldos_dictInsert _ _ _ hm ((depositar_campos c m).1 hc) p hp
    · exact fun p hp => saldos_dictInsert _ _ _ hm ((depositar_campos c m).1 hc) p hp
    · exact hm

theorem procesar_cambio_pin_actual (s : SysState) (id : String) (c : Cuenta)
    (ahora : Nat) (pa pn : Option String) (pc : String) :
    (procesar_cambio_pin s id c ahora pa pn pc).cuenta_actual = s.cuenta_actual := by
  cases pa with
  | none => rfl
  | some a =>
    cases pn with
    | none => rfl
    | some n =>
      simp only [procesar_cambio_pin]
      split_ifs <;> rfl

theorem procesar_cambio_pin_get_ne (s : SysState) (id : String) (c : Cuenta)
    (ahora : Nat) (pa pn : Option String) (pc : String) (id' : String)
    (hne : id' ≠ id) :
    dictGet (procesar_cambio_pin s id c ahora pa pn pc).cuentas id' =
      dictGet s.cuentas id' := by
  cases pa with
  | none => rfl
  | some a =>
    cases pn with
    | none => rfl
    | some n =>
      simp only [procesar_cambio_pin]
      split_ifs <;> simp [registrar, dictGet_dictInsert_ne _ _ _ _ hne]

theorem procesar_cambio_pin_get_self (s : SysState) (id : String) (c : Cuenta)
    (ahora : Nat) (pa pn : Option String) (pc : String)
    (hg : dictGet s.cuentas id = some c) :
    ∃ c', dictGet (procesar_cambio_pin s id c ahora pa pn pc).cuentas id = some c' ∧
      c'.bloqueada = c.bloqueada ∧ (0 ≤ c.saldo → 0 ≤ c'.saldo) := by
  cases pa with
  | none => exact ⟨c, hg, rfl, fun hs => hs⟩
  | some a =>
    cases pn with
    | none => exact ⟨c, hg, rfl, fun hs => hs⟩
    | some n =>
      simp only [procesar_cambio_pin]
      split_ifs with h1 h2
      · exact ⟨c, hg, rfl, fun hs => hs⟩
      · exact ⟨(cambiar_pin c a n).1, dictGet_dictInsert_self _ _ _,
          (cambiar_pin_campos c a n).2.1,
          fun hs => (cambiar_pin_campos c a n).1 ▸ hs⟩
      · exact ⟨(cambiar_pin c a n).1, dictGet_dictInsert_self _ _ _,
          (cambiar_pin_campos c a n).2.1,
          fun hs => (cambiar_pin_campos c a n).1 ▸ hs⟩

theorem procesar_cambio_pin_saldos (s : SysState) (id : String) (c : Cuenta)
    (ahora : Nat) (pa pn : Option String) (pc : String)
    (hm : ∀ q ∈ s.cuentas, 0 ≤ q.2.saldo) (hc : 0 ≤ c.saldo) :
    ∀ p ∈ (procesar_cambio_pin s id c ahora pa pn pc).cuentas, 0 ≤ p.2.saldo := by
  cases pa with
  | none => exact hm
  | some a =>
    cases pn with
    | none => exact hm
    | some n =>
      simp only [procesar_cambio_pin]
      split_ifs with h1 h2
      · exact hm
      · exact fun p hp => saldos_dictInsert _ _ _ hm
          ((cambiar_pin_campos c a n).1 ▸ hc) p hp
      · exact fun p hp => saldos_dictInsert _ _ _ hm
          ((cambiar_pin_campos c a n).1 ▸ hc) p hp

/-- Authentication against a locked account is a complete no-op. -/
theorem autenticar_usuario_bloqueada (s : SysState) (ahora : Nat) (numero : String)
    (pins : List (Option String)) (c : Cuenta)
    (hg : dictGet s.cuentas numero = some c) (hb : c.bloqueada = true) :
    autenticar_usuario s ahora numero pins = s := by
  simp [autenticar_usuario, hg, hb]

theorem autenticar_usuario_get_ne (s : SysState) (ahora : Nat) (numero : String)
    (pins : List (Option String)) (id' : String) (hne : id' ≠ numero) :
    dictGet (autenticar_usuario s ahora numero pins).cuentas id' =
      dictGet s.cuentas id' := by
  cases hg : dictGet s.cuentas numero with
  | none => simp [autenticar_usuario, hg, registrar]
  | some c =>
    simp only [autenticar_usuario, hg]
    split_ifs <;> simp [registrar, dictGet_dictInsert_ne _ _ _ _ hne]

/-- The session after an authentication attempt: either it is unchanged, or
the attempt succeeded and bound the entered account number, whose stored
account was unlocked and stays unlocked. -/
theorem autenticar_usuario_actual (s : SysState) (ahora : Nat) (numero : String)
    (pins : List (Option String)) :
    (autenticar_usuario s ahora numero pins).cuenta_actual = s.cuenta_actual ∨
    ((autenticar_usuario s ahora numero pins).cuenta_actual = some numero ∧
      ∃ c', dictGet (autenticar_usuario s ahora numero pins).cuentas numero = some c' ∧
        c'.bloqueada = false) := by
  cases hg : dictGet s.cuentas numero with
  | none => exact Or.inl (by simp [autenticar_usuario, hg, registrar])
  | some c =>
    simp only [autenticar_usuario, hg]
    by_cases hb : c.bloqueada
    · simp [hb]
    · simp only [hb, if_false]
      by_cases hx : (autenticarLoop c pins intentosPinMaximos).2 = true
      · refine Or.inr ⟨?_, (autenticarLoop c pins intentosPinMaximos).1, ?_, ?_⟩
        · rw [if_pos hx]
          rfl
        · rw [if_pos hx]
          exact dictGet_dictInsert_self _ _ _
        · rw [autenticarLoop_exito_bloqueada _ _ _ hx]
          simpa using hb
      · rw [if_neg hx]
        split_ifs <;> exact Or.inl rfl

theorem autenticar_usuario_saldos (s : SysState) (ahora : Nat) (numero : String)
    (pins : List (Option String)) (hm : ∀ q ∈ s.cuentas, 0 ≤ q.2.saldo) :
    ∀ p ∈ (autenticar_usuario s ahora numero pins).cuentas, 0 ≤ p.2.saldo := by
  cases hg : dictGet s.cuentas numero with
  | none => simpa [autenticar_usuario, hg, registrar] using hm
  | some c =>
    simp only [autenticar_usuario, hg]
    have hc : 0 ≤ c.saldo := hm (numero, c) (dictGet_mem _ _ _ hg)
    have hl : 0 ≤ (autenticarLoop c pins intentosPinMaximos).1.saldo :=
      (autenticarLoop_campos intentosPinMaximos pins c).1 ▸ hc
    split_ifs with h1 h2 h3
    · exact hm
    · exact fun p hp => saldos_dictInsert s.cuentas numero
        (autenticarLoop c pins intentosPinMaximos).1 hm hl p hp
    · exact fun p hp => saldos_dictInsert s.cuentas numero
        (autenticarLoop c pins intentosPinMaximos).1 hm hl p hp
    · exact fun p hp => saldos_dictInsert s.cuentas numero
        (autenticarLoop c pins intentosPinMaximos).1 hm hl p hp

theorem desbloquear_actual (s : SysState) (numero : String) (cf : Bool) :
    (desbloquear_cuenta s numero cf).cuenta_actual = s.cuenta_actual := by
  cases hg : dictGet s.cuentas numero with
  | none => simp [desbloquear_cuenta, hg]
  | some c =>
    simp only [desbloquear_cuenta, hg]
    split_ifs <;> rfl

theorem desbloquear_get_ne (s : SysState) (numero : String) (cf : Bool)
    (id' : String) (hne : id' ≠ numero) :
    dictGet (desbloquear_cuenta s numero cf).cuentas id' = dictGet s.cuentas id' := by
  cases hg : dictGet s.cuentas numero with
  | none => simp [desbloquear_cuenta, hg]
  | some c =>
    simp only [desbloquear_cuenta, hg]
    split_ifs <;> simp [dictGet_dictInsert_ne _ _ _ _ hne]

/-- Any account readable after an unlock operation was either already stored
or is unlocked. -/
theorem desbloquear_get_cases (s : SysState) (numero : String) (cf : Bool)
    (id' : String) (c' : Cuenta)
    (h : dictGet (desbloquear_cuenta s numero cf).cuentas id' = some c') :
    dictGet s.cuentas id' = some c' ∨ c'.bloqueada = false := by
  by_cases hne : id' = numero
  · subst hne
    cases hg : dictGet s.cuentas id' with
    | none =>
      simp only [desbloquear_cuenta, hg] at h
      exact Or.inl h
    | some c0 =>
      simp only [desbloquear_cuenta, hg] at h
      split_ifs at h with h1 h2
      · rw [← hg]
        exact Or.inl h
      · rw [dictGet_dictInsert_self] at h
        obtain rfl : _ = c' := (Option.some.injEq _ _).mp h
        exact Or.inr rfl
      · rw [← hg]
        exact Or.inl h
  · rw [desbloquear_get_ne s numero cf id' hne] at h
    exact Or.inl h

theorem desbloquear_saldos (s : SysState) (numero : String) (cf : Bool)
    (hm : ∀ q ∈ s.cuentas, 0 ≤ q.2.saldo) :
    ∀ p ∈ (desbloquear_cuenta s numero cf).cuentas, 0 ≤ p.2.saldo := by
  cases hg : dictGet s.cuentas numero with
  | none => simpa [desbloquear_cuenta, hg] using hm
  | some c =>
    simp only [desbloquear_cuenta, hg]
    have hc : 0 ≤ c.saldo := hm (numero, c) (dictGet_mem _ _ _ hg)
    split_ifs with h1 h2
    · exact hm
    · exact fun p hp => saldos_dictInsert s.cuentas numero
        ({ c with bloqueada := false, intentos_fallidos := 0 }) hm hc p hp
    · exact hm

/-- The unlock operation on a stored, locked account, confirmed: it clears
the lock flag and the failed-attempt count and touches nothing else. -/
theorem desbloquear_unlock (s : SysState) (numero : String) (c : Cuenta)
    (hg : dictGet s.cuentas numero = some c) (hb : c.bloqueada = true) :
    desbloquear_cuenta s numero true =
      { s with cuentas := dictInsert s.cuentas numero { c with bloqueada := false, intentos_fallidos := 0 } } := by
  simp [desbloquear_cuenta, hg, hb]

/-- `crear_cuenta` with a cancelled PIN prompt is a no-op. -/
theorem crear_cuenta_pin_none (s : SysState) (ahora : Nat) (numero : String)
    (sal : Option Int) : crear_cuenta s ahora numero none sal = s := by
  simp only [crear_cuenta]
  split_ifs <;> rfl

/-- `crear_cuenta` with an unparseable balance entry is a no-op. -/
theorem crear_cuenta_sal_none (s : SysState) (ahora : Nat) (numero : String)
    (p : String) : crear_cuenta s ahora numero (some p) none = s := by
  simp only [crear_cuenta]
  split_ifs <;> rfl

/-- `crear_cuenta` with both prompts answered, as a plain conditional. -/
theorem crear_cuenta_some_some (s : SysState) (ahora : Nat) (numero : String)
    (p : String) (v : Int) :
    crear_cuenta s ahora numero (some p) (some v) =
      if !(numero.data.all Char.isDigit && numero.length == 6) then s
      else if (dictGet s.cuentas numero).isSome then s
      else if v < 0 then s
      else { s with cuentas := dictInsert s.cuentas numero (nuevaCuenta numero p v ahora) } :=
  rfl

theorem crear_cuenta_actual (s : SysState) (ahora : Nat) (numero : String)
    (pin : Option String) (sal : Option Int) :
    (crear_cuenta s ahora numero pin sal).cuenta_actual = s.cuenta_actual := by
  cases pin with
  | none => rw [crear_cuenta_pin_none]
  | some p =>
    cases sal with
    | none => rw [crear_cuenta_sal_none]
    | some v =>
      rw [crear_cuenta_some_some]
      split_ifs <;> rfl

theorem crear_cuenta_get_ne (s : SysState) (ahora : Nat) (numero : String)
    (pin : Option String) (sal : Option Int) (id' : String) (hne : id' ≠ numero) :
    dictGet (crear_cuenta s ahora numero pin sal).cuentas id' =
      dictGet s.cuentas id' := by
  cases pin with
  | none => rw [crear_cuenta_pin_none]
  | some p =>
    cases sal with
    | none => rw [crear_cuenta_sal_none]
    | some v =>
      rw [crear_cuenta_some_some]
      split_ifs <;> simp [dictGet_dictInsert_ne _ _ _ _ hne]

/-- Creating an account whose number is already stored is a no-op. -/
theorem crear_cuenta_dup (s : SysState) (ahora : Nat) (numero : String)
    (pin : Option String) (sal : Option Int)
    (hdup : (dictGet s.cuentas numero).isSome) :
    crear_cuenta s ahora numero pin sal = s := by
  cases pin with
  | none => exact crear_cuenta_pin_none s ahora numero sal
  | some p =>
    cases sal with
    | none => exact crear_cuenta_sal_none s ahora numero p
    | some v =>
      rw [crear_cuenta_some_some]
      by_cases h1 : (!(numero.data.all Char.isDigit && numero.length == 6)) = true
      · rw [if_pos h1]
      · rw [if_neg h1, if_pos hdup]

theorem crear_cuenta_get_cases (s : SysState) (ahora : Nat) (numero : String)
    (pin : Option String) (sal : Option Int) (id' : String) (c' : Cuenta)
    (h : dictGet (crear_cuenta s ahora numero pin sal).cuentas id' = some c') :
    dictGet s.cuentas id' = some c' ∨ c'.bloqueada = false := by
  by_cases hne : id' = numero
  · subst hne
    cases pin with
    | none =>
      rw [crear_cuenta_pin_none] at h
      exact Or.inl h
    | some p =>
      cases sal with
      | none =>
        rw [crear_cuenta_sal_none] at h
        exact Or.inl h
      | some v =>
        rw [crear_cuenta_some_some] at h
        split_ifs at h with h1 h2 h3
        · exact Or.inl h
        · exact Or.inl h
        · exact Or.inl h
        · rw [dictGet_dictInsert_self] at h
          obtain rfl : _ = c' := (Option.some.injEq _ _).mp h
          exact Or.inr rfl
  · rw [crear_cuenta_get_ne s ahora numero pin sal id' hne] at h
    exact Or.inl h

theorem crear_cuenta_saldos (s : SysState) (ahora : Nat) (numero : String)
    (pin : Option String) (sal : Option Int)
    (hm : ∀ q ∈ s.cuentas, 0 ≤ q.2.saldo) :
    ∀ p ∈ (crear_cuenta s ahora numero pin sal).cuentas, 0 ≤ p.2.saldo := by
  cases pin with
  | none => rw [crear_cuenta_pin_none]; exact hm
  | some p =>
    cases sal with
    | none => rw [crear_cuenta_sal_none]; exact hm
    | some v =>
      rw [crear_cuenta_some_some]
      split_ifs with h1 h2 h3
      · exact hm
      · exact hm
      · exact hm
      · exact fun q hq => saldos_dictInsert s.cuentas numero
          (nuevaCuenta numero p v ahora) hm
          (by simp only [nuevaCuenta]; omega) q hq

/-- Every engine step preserves the session invariant. -/
theorem sesionValida_step (s : SysState) (op : Op) (h : SesionValida s) :
    SesionValida (step s op) := by
  cases op with
  | autenticar ahora numero pins =>
    cases hs : s.cuenta_actual with
    | some id0 => simpa [step, hs] using h
    | none =>
      simp only [step, hs]
      rcases autenticar_usuario_actual s ahora numero pins with ha | ⟨ha, c', hgc, hbc⟩
      · intro id c hid hc
        rw [ha, hs] at hid
        cases hid
      · intro id c hid hc
        rw [ha] at hid
        obtain rfl : numero = id := by simpa using hid
        rw [hgc] at hc
        obtain rfl : c' = c := by simpa using hc
        exact hbc
  | retiro hoy monto confirmado =>
    cases hs : s.cuenta_actual with
    | none => simpa [step, conSesion, hs] using h
    | some id0 =>
      cases hg : dictGet s.cuentas id0 with
      | none => simpa [step, conSesion, hs, hg] using h
      | some c0 =>
        have hb0 : c0.bloqueada = false := h id0 c0 hs hg
        simp only [step, conSesion, hs, hg]
        intro id c hid hc
        rw [procesar_retiro_actual, hs] at hid
        obtain rfl : id0 = id := by simpa using hid
        obtain ⟨c', hgc, hbc, -⟩ :=
          procesar_retiro_get_self s id0 c0 hoy monto confirmado
        rw [hgc] at hc
        obtain rfl : c' = c := by simpa using hc
        rw [hbc, hb0]
  | deposito ahora monto confirmado =>
    cases hs : s.cuenta_actual with
    | none => simpa [step, conSesion, hs] using h
    | some id0 =>
      cases hg : dictGet s.cuentas id0 with
      | none => simpa [step, conSesion, hs, hg] using h
      | some c0 =>
        have hb0 : c0.bloqueada = false := h id0 c0 hs hg
        simp only [step, conSesion, hs, hg]
        intro id c hid hc
        rw [procesar_deposito_actual, hs] at hid
        obtain rfl : id0 = id := by simpa using hid
        obtain ⟨c', hgc, hbc, -⟩ :=
          procesar_deposito_get_self s id0 c0 ahora monto confirmado hg
        rw [hgc] at hc
        obtain rfl : c' = c := by simpa using hc
        rw [hbc, hb0]
  | consulta ahora =>
    cases hs : s.cuenta_actual with
    | none => simpa [step, conSesion, hs] using h
    | some id0 =>
      cases hg : dictGet s.cuentas id0 with
      | none => simpa [step, conSesion, hs, hg] using h
      | some c0 =>
        simp only [step, conSesion, hs, hg]
        intro id c hid hc
        rw [registrar_actual] at hid
        rw [registrar_cuentas] at hc
        exact h id c hid hc
  | cambioPin ahora pa pn pc =>
    cases hs : s.cuenta_actual with
    | none => simpa [step, conSesion, hs] using h
    | some id0 =>
      cases hg : dictGet s.cuentas id0 with
      | none => simpa [step, conSesion, hs, hg] using h
      | some c0 =>
        have hb0 : c0.bloqueada = false := h id0 c0 hs hg
        simp only [step, conSesion, hs, hg]
        intro id c hid hc
        rw [procesar_cambio_pin_actual, hs] at hid
        obtain rfl : id0 = id := by simpa using hid
        obtain ⟨c', hgc, hbc, -⟩ :=
          procesar_cambio_pin_get_self s id0 c0 ahora pa pn pc hg
        rw [hgc] at hc
        obtain rfl : c' = c := by simpa using hc
        rw [hbc, hb0]
  | cerrarSesion confirmado =>
    by_cases hcf : confirmado = true
    · intro id c hid hc
      simp [step, hcf] at hid
    · simpa [step, hcf] using h
  | desbloquear numero confirmado =>
    intro id c hid hc
    simp only [step] at hid hc
    rw [desbloquear_actual] at hid
    rcases desbloquear_get_cases s numero confirmado id c hc with hcs | hbf
    · exact h id c hid hcs
    · exact hbf
  | crearCuenta ahora numero pin sal =>
    intro id c hid hc
    simp only [step] at hid hc
    rw [crear_cuenta_actual] at hid
    rcases crear_cuenta_get_cases s ahora numero pin sal id c hc with hcs | hbf
    · exact h id c hid hcs
    · exact hbf
  | limpiarRegistro confirmado =>
    intro id c hid hc
    simp only [step, limpiar_logs] at hid hc
    split_ifs at hid hc <;> exact h id c hid hc

/-- A state with no bound session satisfies the session invariant. -/
theorem sesionValida_of_none (s : SysState) (h : s.cuenta_actual = none) :
    SesionValida s := by
  intro id c hid hc
  rw [h] at hid
  cases hid

/-- The session invariant holds in every state reachable from a state with
no bound session. -/
theorem sesionValida_run (s0 : SysState) (ops : List Op) (h : SesionValida s0) :
    SesionValida (run s0 ops) := by
  induction ops generalizing s0 with
  | nil => exact h
  | cons op rest ih => exact ih (step s0 op) (sesionValida_step s0 op h)

/-- Every engine step keeps every stored balance non-negative. -/
theorem saldos_step (s : SysState) (op : Op)
    (hm : ∀ q ∈ s.cuentas, 0 ≤ q.2.saldo) :
    ∀ p ∈ (step s op).cuentas, 0 ≤ p.2.saldo := by
  cases op with
  | autenticar ahora numero pins =>
    cases hs : s.cuenta_actual with
    | some id0 => simpa [step, hs] using hm
    | none =>
      simp only [step, hs]
      exact autenticar_usuario_saldos s ahora numero pins hm
  | retiro hoy monto confirmado =>
    cases hs : s.cuenta_actual with
    | none => simpa [step, conSesion, hs] using hm
    | some id0 =>
      cases hg : dictGet s.cuentas id0 with
      | none => simpa [step, conSesion, hs, hg] using hm
      | some c0 =>
        simp only [step, conSesion, hs, hg]
        exact procesar_retiro_saldos s id0 c0 hoy monto confirmado hm
          (hm (id0, c0) (dictGet_mem _ _ _ hg))
  | deposito ahora monto confirmado =>
    cases hs : s.cuenta_actual with
    | none => simpa [step, conSesion, hs] using hm
    | some id0 =>
      cases hg : dictGet s.cuentas id0 with
      | none => simpa [step, conSesion, hs, hg] using hm
      | some c0 =>
        simp only [step, conSesion, hs, hg]
        exact procesar_deposito_saldos s id0 c0 ahora monto confirmado hm
          (hm (id0, c0) (dictGet_mem _ _ _ hg))
  | consulta ahora =>
    cases hs : s.cuenta_actual with
    | none => simpa [step, conSesion, hs] using hm
    | some id0 =>
      cases hg : dictGet s.cuentas id0 with
      | none => simpa [step, conSesion, hs, hg] using hm
      | some c0 =>
        simp only [step, conSesion, hs, hg]
        intro p hp
        rw [registrar_cuentas] at hp
        exact hm p hp
  | cambioPin ahora pa pn pc =>
    cases hs : s.cuenta_actual with
    | none => simpa [step, conSesion, hs] using hm
    | some id0 =>
      cases hg : dictGet s.cuentas id0 with
      | none => simpa [step, conSesion, hs, hg] using hm
      | some c0 =>
        simp only [step, conSesion, hs, hg]
        exact procesar_cambio_pin_saldos s id0 c0 ahora pa pn pc hm
          (hm (id0, c0) (dictGet_mem _ _ _ hg))
  | cerrarSesion confirmado =>
    by_cases hcf : confirmado = true <;> simpa [step, hcf] using hm
  | desbloquear numero confirmado =>
    simpa only [step] using desbloquear_saldos s numero confirmado hm
  | crearCuenta ahora numero pin sal =>
    simpa only [step] using crear_cuenta_saldos s ahora numero pin sal hm
  | limpiarRegistro confirmado =>
    intro p hp
    simp only [step, limpiar_logs] at hp
    split_ifs at hp <;> exact hm p hp

/-! ### C1 — the balance never goes negative -/

/-- C1: starting from any state whose stored balances are non-negative (in
particular accounts created with non-negative initial balance), every
sequence of engine operations — withdrawals, deposits, PIN changes,
authentications, account creations — keeps every account balance
non-negative: `retirar` commits only when the balance covers the amount and
`depositar` commits only positive amounts. -/
theorem claim_C1 (s0 : SysState) (ops : List Op)
    (h0 : ∀ q ∈ s0.cuentas, 0 ≤ q.2.saldo) :
    ∀ p ∈ (run s0 ops).cuentas, 0 ≤ p.2.saldo := by
  induction ops generalizing s0 with
  | nil => exact h0
  | cons op rest ih => exact ih (step s0 op) (saldos_step s0 op h0)

/-- C1 (witness): the demo account, one maximal withdrawal and one deposit. -/
theorem claim_C1_witness :
    (run ⟨[("123456", nuevaCuenta "123456" "1234" 100000 0)], some "123456", []⟩
        [Op.retiro 0 50000 true, Op.deposito 0 (some 1) true]).cuentas.all
      (fun p => decide (0 ≤ p.2.saldo)) = true := by
  have h := claim_C1 ⟨[("123456", nuevaCuenta "123456" "1234" 100000 0)], some "123456", []⟩
    [Op.retiro 0 50000 true, Op.deposito 0 (some 1) true] (by decide)
  rw [List.all_eq_true]
  intro p hp
  simpa using h p hp

/-! ### C3 — the lockout rule -/

/-- C3 (counterexample): the claim says `failedAttempts` never exceeds 3
while unlocked.  But the locking decision uses the per-call loop counter,
not `failedAttempts`: two authentication calls that each enter two wrong
PINs and then cancel leave the demo account with `intentos_fallidos = 4`
and `bloqueada = false` — a reachable state. -/
theorem claim_C3_counterexample :
    (dictGet (run ⟨[("123456", nuevaCuenta "123456" "1234" 100000 0)], none, []⟩
        [Op.autenticar 0 "123456" [some "0000", some "1111", none],
         Op.autenticar 1 "123456" [some "0000", some "1111", none]]).cuentas
      "123456").map (fun c => (c.intentos_fallidos, c.bloqueada)) =
      some (4, false) := by
  rfl

/-- C3 (amended): within one authentication call on an unlocked account,
three wrong PINs lock it (each incrementing `intentos_fallidos`, which may
therefore end above 3), and a correct PIN before the limit resets
`intentos_fallidos` to 0 without locking; but the lock fires on the third
wrong attempt of the call regardless of the incoming `intentos_fallidos`,
which persists across cancelled calls and so can exceed 3 while unlocked. -/
theorem claim_C3_amended :
    (∀ (c : Cuenta) (p1 p2 p3 : String) (resto : List (Option String)),
      c.verificar p1 = false → c.verificar p2 = false → c.verificar p3 = false →
      autenticarLoop c (some p1 :: some p2 :: some p3 :: resto) intentosPinMaximos =
        ({ c with intentos_fallidos := c.intentos_fallidos + 3, bloqueada := true },
          false)) ∧
    (∀ (c : Cuenta) (p1 p2 p3 : String),
      c.verificar p1 = false → c.verificar p2 = false → c.verificar p3 = true →
      autenticarLoop c [some p1, some p2, some p3] intentosPinMaximos =
        ({ c with intentos_fallidos := 0 }, true)) := by
  constructor
  · intro c p1 p2 p3 resto h1 h2 h3
    simp only [intentosPinMaximos, autenticarLoop, Cuenta.verificar] at h1 h2 h3 ⊢
    simp [h1, h2, h3]
  · intro c p1 p2 p3 h1 h2 h3
    simp only [intentosPinMaximos, autenticarLoop, Cuenta.verificar] at h1 h2 h3 ⊢
    simp [h1, h2, h3]

/-- C3 (witness): both halves of the amended claim on the demo account. -/
theorem claim_C3_amended_witness :
    autenticarLoop (nuevaCuenta "123456" "1234" 100000 0)
        [some "0000", some "1111", some "2222"] intentosPinMaximos =
      ({ nuevaCuenta "123456" "1234" 100000 0 with
          intentos_fallidos := 3, bloqueada := true }, false) ∧
    autenticarLoop (nuevaCuenta "123456" "1234" 100000 0)
        [some "0000", some "1111", some "1234"] intentosPinMaximos =
      ({ nuevaCuenta "123456" "1234" 100000 0 with intentos_fallidos := 0 }, true) := by
  constructor
  · have h := claim_C3_amended.1 (nuevaCuenta "123456" "1234" 100000 0)
      "0000" "1111" "2222" [] (by decide) (by decide) (by decide)
    simpa using h
  · exact claim_C3_amended.2 (nuevaCuenta "123456" "1234" 100000 0)
      "0000" "1111" "1234" (by decide) (by decide) (by decide)

/-! ### C4 — lockout blocks everything until the administrative unlock -/

/-- In a state satisfying the session invariant, no operation other than the
administrative unlock of that very account touches a locked account. -/
theorem paso_preserva_bloqueada (s : SysState) (op : Op) (id : String) (c : Cuenta)
    (hses : SesionValida s)
    (hc : dictGet s.cuentas id = some c) (hb : c.bloqueada = true)
    (hnu : ∀ cf, op ≠ Op.desbloquear id cf) :
    dictGet (step s op).cuentas id = some c := by
  cases op with
  | autenticar ahora numero pins =>
    cases hs : s.cuenta_actual with
    | some id0 => simpa [step, hs] using hc
    | none =>
      simp only [step, hs]
      by_cases hne : id = numero
      · subst hne
        rw [autenticar_usuario_bloqueada s ahora id pins c hc hb]
        exact hc
      · rw [autenticar_usuario_get_ne s ahora numero pins id hne]
        exact hc
  | retiro hoy monto confirmado =>
    cases hs : s.cuenta_actual with
    | none => simpa [step, conSesion, hs] using hc
    | some id0 =>
      cases hg : dictGet s.cuentas id0 with
      | none => simpa [step, conSesion, hs, hg] using hc
      | some c0 =>
        have hb0 : c0.bloqueada = false := hses id0 c0 hs hg
        have hne : id ≠ id0 := by
          intro he
          subst he
          rw [hc] at hg
          obtain rfl : c = c0 := by simpa using hg
          rw [hb0] at hb
          cases hb
        simp only [step, conSesion, hs, hg]
        rw [procesar_retiro_get_ne s id0 c0 hoy monto confirmado id hne]
        exact hc
  | deposito ahora monto confirmado =>
    cases hs : s.cuenta_actual with
    | none => simpa [step, conSesion, hs] using hc
    | some id0 =>
      cases hg : dictGet s.cuentas id0 with
      | none => simpa [step, conSesion, hs, hg] using hc
      | some c0 =>
        have hb0 : c0.bloqueada = false := hses id0 c0 hs hg
        have hne : id ≠ id0 := by
          intro he
          subst he
          rw [hc] at hg
          obtain rfl : c = c0 := by simpa using hg
          rw [hb0] at hb
          cases hb
        simp only [step, conSesion, hs, hg]
        rw [procesar_deposito_get_ne s id0 c0 ahora monto confirmado id hne]
        exact hc
  | consulta ahora =>
    cases hs : s.cuenta_actual with
    | none => simpa [step, conSesion, hs] using hc
    | some id0 =>
      cases hg : dictGet s.cuentas id0 with
      | none => simpa [step, conSesion, hs, hg] using hc
      | some c0 =>
        simp only [step, conSesion, hs, hg]
        rw [registrar_cuentas]
        exact hc
  | cambioPin ahora pa pn pc =>
    cases hs : s.cuenta_actual with
    | none => simpa [step, conSesion, hs] using hc
    | some id0 =>
      cases hg : dictGet s.cuentas id0 with
      | none => simpa [step, conSesion, hs, hg] using hc
      | some c0 =>
        have hb0 : c0.bloqueada = false := hses id0 c0 hs hg
        have hne : id ≠ id0 := by
          intro he
          subst he
          rw [hc] at hg
          obtain rfl : c = c0 := by simpa using hg
          rw [hb0] at hb
          cases hb
        simp only [step, conSesion, hs, hg]
        rw [procesar_cambio_pin_get_ne s id0 c0 ahora pa pn pc id hne]
        exact hc
  | cerrarSesion confirmado =>
    by_cases hcf : confirmado = true <;> simpa [step, hcf] using hc
  | desbloquear numero confirmado =>
    have hne : id ≠ numero := by
      intro he
      subst he
      exact hnu confirmado rfl
    simp only [step]
    rw [desbloquear_get_ne s numero confirmado id hne]
    exact hc
  | crearCuenta ahora numero pin sal =>
    simp only [step]
    by_cases hne : id = numero
    · subst hne
      rw [crear_cuenta_dup s ahora id pin sal (by rw [hc]; rfl)]
      exact hc
    · rw [crear_cuenta_get_ne s ahora numero pin sal id hne]
      exact hc
  | limpiarRegistro confirmado =>
    simp only [step, limpiar_logs]
    split_ifs <;> exact hc

/-- C4: in every state reachable from a session-free start, a locked
account is left completely untouched by every operation that is not its own
administrative unlock — in particular no withdrawal or deposit changes its
balance — and the confirmed unlock operation resets exactly `bloqueada` and
`intentos_fallidos`. -/
theorem claim_C4 (s0 : SysState) (ops : List Op) (op : Op) (id : String) (c : Cuenta)
    (h0 : s0.cuenta_actual = none)
    (hc : dictGet (run s0 ops).cuentas id = some c)
    (hb : c.bloqueada = true)
    (hnu : ∀ cf, op ≠ Op.desbloquear id cf) :
    dictGet (step (run s0 ops) op).cuentas id = some c ∧
    dictGet (step (run s0 ops) (Op.desbloquear id true)).cuentas id =
      some { c with bloqueada := false, intentos_fallidos := 0 } := by
  have hses : SesionValida (run s0 ops) :=
    sesionValida_run s0 ops (sesionValida_of_none s0 h0)
  refine ⟨paso_preserva_bloqueada (run s0 ops) op id c hses hc hb hnu, ?_⟩
  show dictGet (desbloquear_cuenta (run s0 ops) id true).cuentas id = _
  rw [desbloquear_unlock (run s0 ops) id c hc hb]
  exact dictGet_dictInsert_self _ _ _

/-- C4 (witness): a locked account in a loaded state is untouched by a
deposit attempt and unlocked by the administrative unlock. -/
theorem claim_C4_witness :
    dictGet (step (run ⟨[("1", ⟨"1", hash_pin "1234", 7, true, 3, none, 0, 0⟩)], none, []⟩ [])
        (Op.deposito 0 (some 5) true)).cuentas "1" =
      some ⟨"1", hash_pin "1234", 7, true, 3, none, 0, 0⟩ ∧
    dictGet (step (run ⟨[("1", ⟨"1", hash_pin "1234", 7, true, 3, none, 0, 0⟩)], none, []⟩ [])
        (Op.desbloquear "1" true)).cuentas "1" =
      some ⟨"1", hash_pin "1234", 7, false, 0, none, 0, 0⟩ := by
  have h := claim_C4 ⟨[("1", ⟨"1", hash_pin "1234", 7, true, 3, none, 0, 0⟩)], none, []⟩
    [] (Op.deposito 0 (some 5) true) "1" ⟨"1", hash_pin "1234", 7, true, 3, none, 0, 0⟩
    rfl (by rfl) rfl (fun cf h => by cases h)
  exact ⟨h.1, h.2⟩

/-! ### C9 — cancellation at the confirmation step -/

/-- C9 (counterexample): a withdrawal of 10 cancelled at the confirmation
prompt, on an account whose stored date (day 0) differs from today (day 1),
does log a Cancelled record but does not leave every field as it was: the
eligibility check already committed the daily reset
(`retiros_diarios` 500 to 0, `ultimo_retiro_fecha` day 0 to day 1). -/
theorem claim_C9_counterexample :
    dictGet (step ⟨[("1", ⟨"1", hash_pin "1234", 1000, false, 0, some 0, 500, 0⟩)],
        some "1", []⟩ (.retiro 1 10 false)).cuentas "1" ≠
      some ⟨"1", hash_pin "1234", 1000, false, 0, some 0, 500, 0⟩ := by
  decide

/-- C9 (amended): cancelling a withdrawal at the confirmation step logs a
Cancelled record, keeps the session and the balance, but leaves the account
exactly as `canWithdraw` returned it — i.e. with the daily reset already
committed whenever the calendar day had changed. -/
theorem claim_C9_amended (s : SysState) (id : String) (c : Cuenta)
    (hoy : Nat) (monto : Int)
    (hses : s.cuenta_actual = some id)
    (hc : dictGet s.cuentas id = some c)
    (hp : (puede_retirar c monto hoy).2.1 = true) :
    step s (.retiro hoy monto false) =
      { cuentas := dictInsert s.cuentas id (puede_retirar c monto hoy).1,
        cuenta_actual := s.cuenta_actual,
        transacciones := s.transacciones ++
          [{ timestamp := hoy, tipo := .retiro, monto := monto,
             estado := .cancelada, cuenta := id, detalle := "" }] } ∧
    (puede_retirar c monto hoy).1.saldo = c.saldo := by
  refine ⟨?_, (puede_retirar_campos c monto hoy).1⟩
  simp [step, conSesion, hses, hc, procesar_retiro, hp, registrar]

/-- C9 (witness): the cancelled withdrawal of the counterexample, produced
through the amended theorem. -/
theorem claim_C9_amended_witness :
    step ⟨[("1", ⟨"1", hash_pin "1234", 1000, false, 0, some 0, 500, 0⟩)],
        some "1", []⟩ (.retiro 1 10 false) =
      { cuentas := [("1", ⟨"1", hash_pin "1234", 1000, false, 0, some 1, 0, 0⟩)],
        cuenta_actual := some "1",
        transacciones := [⟨1, .retiro, 10, .cancelada, "1", ""⟩] } := by
  have h := claim_C9_amended
    ⟨[("1", ⟨"1", hash_pin "1234", 1000, false, 0, some 0, 500, 0⟩)], some "1", []⟩
    "1" ⟨"1", hash_pin "1234", 1000, false, 0, some 0, 500, 0⟩ 1 10
    rfl (by decide) (by decide)
  rw [h.1]
  decide

/-! ### Persistence roundtrip lemmas (C6, C7) -/

theorem fromisoformat_isoformat (t : Nat) : fromisoformat (isoformat t) = some t := by
  simp [fromisoformat, isoformat, List.all_eq_true, List.eq_of_mem_replicate]

theorem tipoDeStr_tipoStr (t : Tipo) : tipoDeStr (tipoStr t) = some t := by
  cases t <;> rfl

theorem estadoDeStr_estadoStr (e : Estado) : estadoDeStr (estadoStr e) = some e := by
  cases e <;> rfl

/-- Decoding a serialized transaction restores every field. -/
theorem transaccion_to_dict_roundtrip (t : Transaccion) :
    Transaccion.from_dict (Transaccion.to_dict t) = some t := by
  simp only [Transaccion.from_dict, Transaccion.to_dict, tipoDeStr_tipoStr,
    estadoDeStr_estadoStr, fromisoformat_isoformat]

/-- Decoding a serialized account restores every field. -/
theorem cuenta_to_dict_roundtrip (c : Cuenta) :
    Cuenta.from_dict (Cuenta.to_dict c) = some c := by
  obtain ⟨n, ph, sa, bl, int, fec, ret, cre⟩ := c
  cases fec <;> simp [Cuenta.from_dict, Cuenta.to_dict, fromisoformat_isoformat]

/-- The account-loading loop on serialized accounts decodes all of them in
order. -/
theorem cargaCuentas_roundtrip (cs : List Cuenta) (acc : List Cuenta) :
    cargaCuentas (cs.map Cuenta.to_dict) acc = (acc ++ cs, true) := by
  induction cs generalizing acc with
  | nil => simp [cargaCuentas]
  | cons c rest ih =>
    simp only [List.map_cons, cargaCuentas, cuenta_to_dict_roundtrip]
    rw [ih]
    simp

/-- The account-loading loop on a list of decodable records decodes all of
them. -/
theorem cargaCuentas_todo (cds : List CuentaDict) (acc : List Cuenta)
    (h : ∀ d ∈ cds, (Cuenta.from_dict d).isSome) :
    cargaCuentas cds acc = (acc ++ cds.filterMap Cuenta.from_dict, true) := by
  induction cds generalizing acc with
  | nil => simp [cargaCuentas]
  | cons d rest ih =>
    obtain ⟨c, hd⟩ := Option.isSome_iff_exists.mp (h d (List.mem_cons_self _ _))
    simp only [cargaCuentas, hd, List.filterMap_cons]
    rw [ih _ (fun q hq => h q (List.mem_cons_of_mem _ hq))]
    simp

/-- One decodable record advances the account-loading loop. -/
theorem cargaCuentas_cons_some (d : CuentaDict) (rest : List CuentaDict)
    (acc : List Cuenta) (c : Cuenta) (hd : Cuenta.from_dict d = some c) :
    cargaCuentas (d :: rest) acc = cargaCuentas rest (acc ++ [c]) := by
  simp [cargaCuentas, hd]

/-- The account-loading loop stops at the first undecodable record, keeping
the prefix decoded so far. -/
theorem cargaCuentas_parcial (buenos : List CuentaDict) (malo : CuentaDict)
    (resto : List CuentaDict) (acc : List Cuenta)
    (hb : ∀ d ∈ buenos, (Cuenta.from_dict d).isSome)
    (hm : Cuenta.from_dict malo = none) :
    cargaCuentas (buenos ++ malo :: resto) acc =
      (acc ++ buenos.filterMap Cuenta.from_dict, false) := by
  induction buenos generalizing acc with
  | nil => simp [cargaCuentas, hm]
  | cons d rest ih =>
    obtain ⟨c, hd⟩ := Option.isSome_iff_exists.mp (hb d (List.mem_cons_self _ _))
    rw [List.cons_append, cargaCuentas_cons_some d _ acc c hd,
      ih _ (fun q hq => hb q (List.mem_cons_of_mem _ hq))]
    simp [hd]

/-- The transaction-loading loop on serialized transactions decodes all of
them in order. -/
theorem cargaTransacciones_roundtrip (ts : List Transaccion) (acc : List Transaccion) :
    cargaTransacciones (ts.map Transaccion.to_dict) acc = (acc ++ ts, true) := by
  induction ts generalizing acc with
  | nil => simp [cargaTransacciones]
  | cons t rest ih =>
    simp only [List.map_cons, cargaTransacciones, transaccion_to_dict_roundtrip]
    rw [ih]
    simp

/-- One decodable record advances the transaction-loading loop. -/
theorem cargaTransacciones_cons_some (d : TransaccionDict)
    (rest : List TransaccionDict) (acc : List Transaccion) (t : Transaccion)
    (hd : Transaccion.from_dict d = some t) :
    cargaTransacciones (d :: rest) acc = cargaTransacciones rest (acc ++ [t]) := by
  simp [cargaTransacciones, hd]

/-- The transaction-loading loop stops at the first undecodable record. -/
theorem cargaTransacciones_parcial (buenos : List TransaccionDict)
    (malo : TransaccionDict) (resto : List TransaccionDict) (acc : List Transaccion)
    (hb : ∀ d ∈ buenos, (Transaccion.from_dict d).isSome)
    (hm : Transaccion.from_dict malo = none) :
    cargaTransacciones (buenos ++ malo :: resto) acc =
      (acc ++ buenos.filterMap Transaccion.from_dict, false) := by
  induction buenos generalizing acc with
  | nil => simp [cargaTransacciones, hm]
  | cons d rest ih =>
    obtain ⟨t, hd⟩ := Option.isSome_iff_exists.mp (hb d (List.mem_cons_self _ _))
    rw [List.cons_append, cargaTransacciones_cons_some d _ acc t hd,
      ih _ (fun q hq => hb q (List.mem_cons_of_mem _ hq))]
    simp [hd]

/-- Inserting a key not present in the dictionary appends. -/
theorem dictInsert_fresh (m : List (String × Cuenta)) (k : String) (v : Cuenta)
    (h : ∀ p ∈ m, p.1 ≠ k) : dictInsert m k v = m ++ [(k, v)] := by
  induction m with
  | nil => rfl
  | cons p rest ih =>
    have hp : p.1 ≠ k := h p (List.mem_cons_self _ _)
    simp only [dictInsert, hp, if_false]
    rw [ih (fun q hq => h q (List.mem_cons_of_mem _ hq))]
    rfl

/-- Rebuilding the account dictionary from its own values, key by key,
restores it when keys are consistent and distinct. -/
theorem listaADict_aux (l : List (String × Cuenta)) (acc : List (String × Cuenta))
    (hk : ∀ p ∈ l, p.1 = p.2.numero_cuenta)
    (hnd : ((acc ++ l).map (fun p => p.1)).Nodup) :
    (l.map (fun p => p.2)).foldl (fun m c => dictInsert m c.numero_cuenta c) acc =
      acc ++ l := by
  induction l generalizing acc with
  | nil => simp
  | cons p rest ih =>
    have hkey : p.2.numero_cuenta = p.1 := (hk p (List.mem_cons_self _ _)).symm
    have hdisj : List.Disjoint (acc.map fun r => r.1) ((p :: rest).map fun r => r.1) := by
      rw [List.map_append] at hnd
      exact List.disjoint_of_nodup_append hnd
    have hfresh : ∀ q ∈ acc, q.1 ≠ p.1 := by
      intro q hq he
      exact hdisj (List.mem_map_of_mem _ hq) (by simp [← he])
    simp only [List.map_cons, List.foldl_cons, hkey]
    rw [dictInsert_fresh acc p.1 p.2 hfresh]
    have hae : acc ++ [(p.1, p.2)] = acc ++ [p] := by simp
    have hnd' : (((acc ++ [p]) ++ rest).map (fun q => q.1)).Nodup := by
      rw [List.append_assoc, List.singleton_append]
      exact hnd
    rw [hae, ih (acc ++ [p]) (fun q hq => hk q (List.mem_cons_of_mem _ hq)) hnd']
    rw [List.append_assoc, List.singleton_append]

theorem listaADict_roundtrip (cuentas : List (String × Cuenta))
    (hk : ∀ p ∈ cuentas, p.1 = p.2.numero_cuenta)
    (hnd : (cuentas.map (fun p => p.1)).Nodup) :
    listaADict (cuentas.map (fun p => p.2)) = cuentas := by
  unfold listaADict
  simpa using listaADict_aux cuentas [] hk (by simpa using hnd)

/-! ### C6 — save/load roundtrip -/

set_option maxRecDepth 8000 in
/-- C6: saving any dictionary of accounts (keyed consistently by their own
account numbers) and any transaction list, then loading, reproduces every
account field exactly and exactly the most recent `min 1000 N` transactions
in their original order; earlier transactions are absent. -/
theorem claim_C6 (cuentas : List (String × Cuenta)) (txs : List Transaccion)
    (hk : ∀ p ∈ cuentas, p.1 = p.2.numero_cuenta)
    (hnd : (cuentas.map (fun p => p.1)).Nodup) :
    cargar_datos (some (some (guardar_datos cuentas txs))) =
      (cuentas, txs.drop (txs.length - 1000)) ∧
    (txs.drop (txs.length - 1000)).length = min 1000 txs.length := by
  constructor
  · simp only [cargar_datos, guardar_datos]
    rw [cargaCuentas_roundtrip, cargaTransacciones_roundtrip]
    simp only [List.nil_append, if_true]
    rw [listaADict_roundtrip cuentas hk hnd]
  · rw [List.length_drop]
    omega

/-- C6 (witness): a two-account ledger with three transactions
round-trips. -/
theorem claim_C6_witness :
    cargar_datos (some (some (guardar_datos
        [("111111", nuevaCuenta "111111" "1234" 500 0),
         ("222222", ⟨"222222", hash_pin "9999", 7, true, 2, some 3, 40, 1⟩)]
        [⟨1, .login, 0, .exitosa, "111111", ""⟩,
         ⟨2, .retiro, 5, .exitosa, "111111", ""⟩,
         ⟨3, .deposito, 9, .cancelada, "222222", ""⟩]))) =
      ([("111111", nuevaCuenta "111111" "1234" 500 0),
        ("222222", ⟨"222222", hash_pin "9999", 7, true, 2, some 3, 40, 1⟩)],
       [⟨1, .login, 0, .exitosa, "111111", ""⟩,
        ⟨2, .retiro, 5, .exitosa, "111111", ""⟩,
        ⟨3, .deposito, 9, .cancelada, "222222", ""⟩]) := by
  have h := claim_C6
    [("111111", nuevaCuenta "111111" "1234" 500 0),
     ("222222", ⟨"222222", hash_pin "9999", 7, true, 2, some 3, 40, 1⟩)]
    [⟨1, .login, 0, .exitosa, "111111", ""⟩,
     ⟨2, .retiro, 5, .exitosa, "111111", ""⟩,
     ⟨3, .deposito, 9, .cancelada, "222222", ""⟩]
    (by decide) (by decide)
  simpa using h.1

/-! ### C7 — behaviour of load on bad durable data -/

/-- C7 (counterexample): a durable file whose second account record has an
undecodable date field does not make `load` return the empty state: the
first account was already added to the dictionary when the error fired, and
is returned. -/
theorem claim_C7_counterexample :
    cargar_datos (some (some
        ⟨[Cuenta.to_dict ⟨"7", hash_pin "1234", 5, false, 0, none, 0, 3⟩,
          ⟨"8", "h", 0, false, 0, some "x", 0, isoformat 0⟩], []⟩)) ≠
      ([], []) := by
  decide

/-- C7 (amended): a missing file or a JSON-level parse failure does yield
the empty state; but a per-record decode failure does not: the accounts
decoded before the failing record are returned (with no transactions at all
when an account record failed, and with the transactions decoded before a
failing transaction record otherwise) — partial data rather than empty. -/
theorem claim_C7_amended :
    cargar_datos none = ([], []) ∧
    cargar_datos (some none) = ([], []) ∧
    (∀ (buenos : List CuentaDict) (malo : CuentaDict) (resto : List CuentaDict)
        (ts : List TransaccionDict),
      (∀ d ∈ buenos, (Cuenta.from_dict d).isSome) →
      Cuenta.from_dict malo = none →
      cargar_datos (some (some ⟨buenos ++ malo :: resto, ts⟩)) =
        (listaADict (buenos.filterMap Cuenta.from_dict), [])) ∧
    (∀ (cds : List CuentaDict) (buenos : List TransaccionDict)
        (malo : TransaccionDict) (resto : List TransaccionDict),
      (∀ d ∈ cds, (Cuenta.from_dict d).isSome) →
      (∀ d ∈ buenos, (Transaccion.from_dict d).isSome) →
      Transaccion.from_dict malo = none →
      cargar_datos (some (some ⟨cds, buenos ++ malo :: resto⟩)) =
        (listaADict (cds.filterMap Cuenta.from_dict),
          buenos.filterMap Transaccion.from_dict)) := by
  refine ⟨rfl, rfl, ?_, ?_⟩
  · intro buenos malo resto ts hb hm
    simp only [cargar_datos]
    rw [cargaCuentas_parcial buenos malo resto [] hb hm]
    simp
  · intro cds buenos malo resto hc hb hm
    simp only [cargar_datos]
    rw [cargaCuentas_todo cds [] hc, cargaTransacciones_parcial buenos malo resto [] hb hm]
    simp

/-- C7 (witness): the partial-load branch of the amended claim at the
counterexample input. -/
theorem claim_C7_amended_witness :
    cargar_datos (some (some
        ⟨[Cuenta.to_dict ⟨"7", hash_pin "1234", 5, false, 0, none, 0, 3⟩,
          ⟨"8", "h", 0, false, 0, some "x", 0, isoformat 0⟩], []⟩)) =
      ([("7", ⟨"7", hash_pin "1234", 5, false, 0, none, 0, 3⟩)], []) := by
  have h := claim_C7_amended.2.2.1
    [Cuenta.to_dict ⟨"7", hash_pin "1234", 5, false, 0, none, 0, 3⟩]
    ⟨"8", "h", 0, false, 0, some "x", 0, isoformat 0⟩ [] []
    (by decide) (by decide)
  exact h.trans (by decide)

end ATM
